/-
A verification development for dicom_pseudon.py (mikevoets/dicom_pseudon).

The Python source is shallowly embedded below: datasets become association
lists from DICOM tags to values, the sqlite-backed accession-number index
becomes an explicit table state, and the orchestrator loops become structural
recursions over the list of discovered files.  Each definition mirrors one
function or code block of the source; comments cite the Python construct
being modelled.
-/
import Mathlib

namespace DicomPseudon

/-! ## String primitives

Python string operations used by the source, re-implemented over `List Char`
so that everything reduces in the kernel.  The attribute values handled by
this program are ASCII, and `str.lower` / sqlite case folding are modelled
on ASCII letters only (sqlite LIKE in fact only folds ASCII).
-/

/-- ASCII lower-casing of one character (sqlite LIKE folding; Python
`str.lower` restricted to ASCII input). -/
def asciiLower (c : Char) : Char :=
  if c.toNat >= 65 && c.toNat <= 90 then Char.ofNat (c.toNat + 32) else c

/-- Python `s.lower()` (ASCII). -/
def pyLower (s : String) : String := String.mk (s.data.map asciiLower)

/-- Characters removed from both ends by Python `str.strip()`. -/
def isSpaceChar (c : Char) : Bool :=
  c == ' ' || c == '\t' || c == '\n' || c == '\r' || c == '\x0b' || c == '\x0c'

/-- Python `s.strip()`. -/
def pyStrip (s : String) : String :=
  String.mk (((s.data.dropWhile isSpaceChar).reverse.dropWhile isSpaceChar).reverse)

/-- Prefix test over `List Char`, comparing characters through `f`
(`f = id` gives exact comparison, `f = asciiLower` case-insensitive). -/
def isPrefixBy (f : Char → Char) : List Char → List Char → Bool
  | [], _ => true
  | _ :: _, [] => false
  | p :: ps, c :: cs => (f p == f c) && isPrefixBy f ps cs

/-- Substring containment over `List Char`: `pat` occurs inside the second
argument, characters compared through `f`. -/
def containsByF (f : Char → Char) (pat : List Char) : List Char → Bool
  | [] => isPrefixBy f pat []
  | c :: cs => isPrefixBy f pat (c :: cs) || containsByF f pat cs

/-- Python `pat in s` for strings (exact, case-sensitive containment). -/
def pyIn (pat s : String) : Bool := containsByF id pat.data s.data

/-- `re.sub('[-_,.]', '', s)`: drop the punctuation characters. -/
def removePunct (s : String) : String :=
  String.mk (s.data.filter (fun c => !(c == '-' || c == '_' || c == ',' || c == '.')))

/-- One step of collapsing runs of spaces: keeps a space only when the next
character is not a space. -/
def collapseSpacesList : List Char → List Char
  | [] => []
  | [c] => [c]
  | c1 :: c2 :: rest =>
    if c1 == ' ' && c2 == ' ' then collapseSpacesList (c2 :: rest)
    else c1 :: collapseSpacesList (c2 :: rest)

/-- `re.sub(' +', ' ', s)`: collapse every run of spaces to one space. -/
def collapseSpaces (s : String) : String := String.mk (collapseSpacesList s.data)

/-- The normalization applied both in `parse_white_list` and in
`white_list_handler`:
`re.sub(' +', ' ', re.sub('[-_,.]', '', x.strip().lower()))`. -/
def normalizeValue (s : String) : String :=
  collapseSpaces (removePunct (pyLower (pyStrip s)))

/-! ## Data model: tags, values, elements, datasets -/

/-- A DICOM tag: (group, element), each an unsigned 16-bit number. -/
abbrev DicomTag := Nat × Nat

/-- The value of a data element as the quarantine/filter code observes it:
either a scalar (a string, or Python `None`) or a pydicom `MultiValue`
whose members are strings or `None`. -/
inductive DicomValue where
  | scalar (v : Option String)
  | multi (vs : List (Option String))
deriving DecidableEq, Repr

/-- One data element: a tag and its value. -/
structure Elem where
  tag : DicomTag
  value : DicomValue
deriving DecidableEq, Repr

/-- A dataset is an ordered association of elements; tags are unique within
a dataset (pydicom stores a dict keyed by tag). -/
abbrev Record := List Elem

/-- `tag in ds` / `ds[tag]`: the element with the given tag, if present. -/
def lookupTag (ds : Record) (t : DicomTag) : Option Elem :=
  ds.find? (fun e => e.tag == t)

/-- The list of values the VM idiom of the source iterates over:
`if elem.VM == 1: elem = [elem.value]` then `for m in elem`.
A scalar yields the one-member list `[value]`; a `MultiValue` of length
other than one is iterated member-wise.  A `MultiValue` of length one has
`VM == 1`, so the code wraps the whole `MultiValue` and then calls string
methods on it, raising; that case is `none`. -/
def elemValues : DicomValue → Option (List (Option String))
  | .scalar v => some [v]
  | .multi vs => if vs.length == 1 then none else some vs

/-! ## Module constants of dicom_pseudon.py -/

def ACCESSION_NUMBER : DicomTag := (0x8, 0x50)
def SERIES_DESCR : DicomTag := (0x8, 0x103E)
def MODALITY : DicomTag := (0x8, 0x60)
def BURNT_IN : DicomTag := (0x28, 0x301)
def IMAGE_TYPE : DicomTag := (0x8, 0x8)
def MANUFACTURER : DicomTag := (0x8, 0x70)
def MANUFACTURER_MODEL_NAME : DicomTag := (0x8, 0x1090)

def DE_IDENTIFICATION_METHOD : String := "Pseudonymized by The Cancer Registry of Norway"

/-- The `ALLOWED_FILE_META` dict: format-critical file meta attributes,
each mapped to `1`. -/
def ALLOWED_FILE_META : List (DicomTag × Nat) :=
  [ ((0x2, 0x0), 1)     -- File Meta Information Group Length
  , ((0x2, 0x1), 1)     -- Version
  , ((0x2, 0x2), 1)     -- Media Storage SOP Class UID
  , ((0x2, 0x3), 1)     -- Media Storage SOP Instance UID
  , ((0x2, 0x10), 1)    -- Transfer Syntax UID
  , ((0x2, 0x12), 1)    -- Implementation Class UID
  , ((0x2, 0x13), 1) ]  -- Implementation Version Name

/-- `ALLOWED_FILE_META.get((group, element), None)` used as a truth value:
present and nonzero.  (All stored values are `1`, hence truthy.) -/
def allowedFileMeta (t : DicomTag) : Bool :=
  match List.lookup t ALLOWED_FILE_META with
  | none => false
  | some n => n != 0

/-! ## check_quarantine

`DicomPseudon.check_quarantine` returns `(bool, reason)`.  Each block of the
Python function becomes one helper below.  A helper returns
`some (some verdict)` when its rule fires, `some none` when it falls
through to the next block, and `none` when the Python code would raise
(string methods invoked on a `MultiValue`), which kills the whole run.
-/

/-- Lines 151-156: the series description block.  Fires with
"patient protocol" or "Likely screen capture".  A `MultiValue` series
description is not `None`, so `.strip()` is called on it and raises. -/
def seriesDescCheck (ds : Record) : Option (Option (Bool × String)) :=
  match lookupTag ds SERIES_DESCR with
  | none => some none
  | some e =>
    match e.value with
    | .scalar none => some none     -- `ds[SERIES_DESCR].value is not None` fails
    | .scalar (some s) =>
      let series_desc := pyLower (pyStrip s)
      if pyIn "patient protocol" series_desc then some (some (true, "patient protocol"))
      else if pyIn "save" series_desc then some (some (true, "Likely screen capture"))
      else some none
    | .multi _ => none              -- `.strip()` on a MultiValue raises

/-- Whether one modality value fails the allow-list test of lines 162-163:
`m is None or not m.lower() in self.modalities`. -/
def modalityBad (modalities : List String) : Option String → Bool
  | none => true
  | some s => !(modalities.contains (pyLower s))

/-- Lines 158-167: the modality block.  When the attribute is present, any
bad value (per `modalityBad`) fires "modality not allowed"; when absent,
the separate `if MODALITY not in ds` check fires "Modality missing".
A `MultiValue` of length one makes the VM idiom call `.lower()` on the
`MultiValue` itself, raising (`elemValues` is `none`). -/
def modalityCheck (modalities : List String) (ds : Record) : Option (Option (Bool × String)) :=
  match lookupTag ds MODALITY with
  | none => some (some (true, "Modality missing"))
  | some e =>
    match elemValues e.value with
    | none => none
    | some vs =>
      if vs.any (modalityBad modalities) then some (some (true, "modality not allowed"))
      else some none

/-- Lines 169-172: the burnt-in annotation block. -/
def burntInCheck (ds : Record) : Option (Option (Bool × String)) :=
  match lookupTag ds BURNT_IN with
  | none => some none
  | some e =>
    match e.value with
    | .scalar none => some none     -- `ds[BURNT_IN].value is not None` fails
    | .scalar (some s) =>
      if ["yes", "y"].contains (pyLower (pyStrip s)) then some (some (true, "burnt-in data"))
      else some none
    | .multi _ => none              -- `.strip()` on a MultiValue raises

/-- Whether one image type value triggers lines 178-180:
`i is not None and "save" in i.strip().lower()`. -/
def imageTypeBad : Option String → Bool
  | none => false
  | some s => pyIn "save" (pyLower (pyStrip s))

/-- Lines 174-180: the image type block, with the same VM idiom as the
modality block. -/
def imageTypeCheck (ds : Record) : Option (Option (Bool × String)) :=
  match lookupTag ds IMAGE_TYPE with
  | none => some none
  | some e =>
    match elemValues e.value with
    | none => none
    | some vs =>
      if vs.any imageTypeBad then some (some (true, "Likely screen capture"))
      else some none

/-- Lines 182-185: the manufacturer block.  No `None` guard here: the code
calls `.strip()` on the value directly, so `None` or a `MultiValue` raises. -/
def manufacturerCheck (ds : Record) : Option (Option (Bool × String)) :=
  match lookupTag ds MANUFACTURER with
  | none => some none
  | some e =>
    match e.value with
    | .scalar (some s) =>
      let manufacturer := pyLower (pyStrip s)
      if pyIn "north american imaging, inc" manufacturer || pyIn "pacsgear" manufacturer then
        some (some (true, "Manufacturer is suspect"))
      else some none
    | _ => none

/-- Lines 187-190: the manufacturer model name block (same shape as the
manufacturer block). -/
def modelNameCheck (ds : Record) : Option (Option (Bool × String)) :=
  match lookupTag ds MANUFACTURER_MODEL_NAME with
  | none => some none
  | some e =>
    match e.value with
    | .scalar (some s) =>
      if pyIn "the dicom box" (pyLower (pyStrip s)) then
        some (some (true, "Manufacturer model name is suspect"))
      else some none
    | _ => none

/-- Lines 169-192: the checks that follow the modality block, ending in
`return False, ""`. -/
def checkTail (ds : Record) : Option (Bool × String) :=
  match burntInCheck ds with
  | none => none
  | some (some v) => some v
  | some none =>
    match imageTypeCheck ds with
    | none => none
    | some (some v) => some v
    | some none =>
      match manufacturerCheck ds with
      | none => none
      | some (some v) => some v
      | some none =>
        match modelNameCheck ds with
        | none => none
        | some (some v) => some v
        | some none => some (false, "")

/-- `DicomPseudon.check_quarantine` (lines 150-192).  `some (flag, reason)`
is the Python return value; `none` means the Python code raised.
`modalities` is `self.modalities`, already lower-cased by `__init__`. -/
def checkQuarantine (modalities : List String) (ds : Record) : Option (Bool × String) :=
  match seriesDescCheck ds with
  | none => none
  | some (some v) => some v
  | some none =>
    match modalityCheck modalities ds with
    | none => none
    | some (some v) => some v
    | some none => checkTail ds

/-! ## Whitelist -/

/-- `self.white_list`: the parsed whitelist, a dict from tag to the list of
normalized allowed strings (possibly containing the wildcard `"*"`). -/
abbrev WhiteList := List (DicomTag × List String)

/-- Python `str(value)` for a data element value, as passed to the
normalizer in `white_list_handler`.  `str(None)` is `"None"`; `str` of a
`MultiValue` renders like a Python list (members repr-ed; the
quote-escaping of repr is not modelled, which is irrelevant to the claims
since they compare against this same function). -/
def pyReprOpt : Option String → String
  | none => "None"
  | some s => "\x27" ++ s ++ "\x27"

def commaSep : List String → String
  | [] => ""
  | [s] => s
  | s :: rest => s ++ ", " ++ commaSep rest

def pyStr : DicomValue → String
  | .scalar none => "None"
  | .scalar (some s) => s
  | .multi vs => "[" ++ commaSep (vs.map pyReprOpt) ++ "]"

/-- `DicomPseudon.white_list_handler` (lines 203-211).  Note the Python
truthiness test `if value:` — a tag mapped to an empty list is treated the
same as an absent tag (return `False`). -/
def whiteListHandler (wl : WhiteList) (e : Elem) : Bool :=
  match List.lookup e.tag wl with
  | none => false
  | some value =>
    if value.isEmpty then false
    else if !(value.contains "*") && !(value.contains (normalizeValue (pyStr e.value))) then false
    else true

/-- The spec-side allowance predicate, following the words of the spec:
the Whitelist allows an attribute when its tag maps to a set of values
that is the wildcard or contains the normalized value.  Compared against
`whiteListHandler` (the source-side definition) below. -/
def spec_allows (wl : WhiteList) (e : Elem) : Prop :=
  ∃ vals, List.lookup e.tag wl = some vals ∧
    ("*" ∈ vals ∨ normalizeValue (pyStr e.value) ∈ vals)

/-! ## The attribute filter: clean, applied via ds.walk -/

/-- `del ds[tag]`. -/
def delTag (ds : Record) (t : DicomTag) : Record :=
  ds.filter (fun a => !(a.tag == t))

/-- `DicomPseudon.clean` (lines 213-228): the walk callback.  Returns the
dataset after the callback ran on element `e` together with the boolean the
callback returns. -/
def clean (wl : WhiteList) (ds : Record) (e : Elem) : Record × Bool :=
  if e.tag == ACCESSION_NUMBER then (ds, true)       -- skip accession number
  else if allowedFileMeta e.tag then (ds, true)      -- necessary to not break DICOM
  else
    let white_listed := whiteListHandler wl e
    if white_listed then (ds, white_listed)
    else (delTag ds e.tag, white_listed)             -- del ds[e.tag]

/-- The decision `clean` makes about one element, independent of the
dataset it mutates. -/
def cleanKeep (wl : WhiteList) (e : Elem) : Bool :=
  e.tag == ACCESSION_NUMBER || allowedFileMeta e.tag || whiteListHandler wl e

/-- `ds.walk(partial(self.clean))`: pydicom snapshots the tag list, then
runs the callback on each element in turn; each callback application may
delete its own element.  The snapshot here is the element list itself. -/
def walkAux (wl : WhiteList) : List Elem → Record → Record
  | [], ds => ds
  | e :: es, ds => walkAux wl es (clean wl ds e).1

/-- The dataset after `ds.walk(partial(self.clean))` (line 237). -/
def dsWalkClean (wl : WhiteList) (ds : Record) : Record := walkAux wl ds ds

/-! ## The Index (sqlite-backed accession-number table)

The store state: `none` before `CREATE TABLE` ran, otherwise the rows in
rowid order, each `(original, serial)` with `serial` nullable.  The queries
of lines 15-22 are modelled against this list.
-/

structure Index where
  table : Option (List (String × Option String))
deriving DecidableEq, Repr

/-- A freshly connected, never-written database file. -/
def Index.empty : Index := ⟨none⟩

/-- The rows of the store (empty when the table was never created). -/
def Index.rows (idx : Index) : List (String × Option String) :=
  idx.table.getD []

/-- `Index.get` (lines 61-68): `SELECT serial FROM t WHERE original = ?`.
Returns `None` when the table does not exist, when no row matches, or when
the matching row's serial is NULL — exactly like the Python method. -/
def Index.get (idx : Index) (original : String) : Option String :=
  match idx.table with
  | none => none
  | some rows =>
    match rows.find? (fun r => r.1 == original) with
    | some r => r.2
    | none => none

/-- `Index.insert` (lines 79-85): `CREATE TABLE` if missing, then
`INSERT OR IGNORE` — a duplicate original is ignored thanks to
`UNIQUE(original)`. -/
def Index.insert (idx : Index) (original : String) : Index :=
  let rows := idx.rows
  if rows.any (fun r => r.1 == original) then ⟨some rows⟩
  else ⟨some (rows ++ [(original, none)])⟩

/-- `Index.update` (lines 87-89): `UPDATE t SET serial = ? WHERE
original = ?`.  There is no `table_exists` guard here: with no table,
sqlite raises OperationalError (`none`); the transaction leaves the store
unchanged and the exception propagates. -/
def Index.update (idx : Index) (original serial : String) : Option Index :=
  match idx.table with
  | none => none
  | some rows =>
    some ⟨some (rows.map (fun r => if r.1 == original then (r.1, some serial) else r))⟩

/-! ### sqlite LIKE and Index.search -/

/-- Matching a `%` wildcard: try the rest of the pattern at every suffix
of the subject (zero or more characters consumed). -/
def starMatch (rest : List Char → Bool) : List Char → Bool
  | [] => rest []
  | c :: s => rest (c :: s) || starMatch rest s

/-- sqlite `LIKE` (the default, ESCAPE-less, ASCII-case-insensitive
matcher): `%` matches any run of characters, `_` exactly one, every other
pattern character matches case-insensitively. -/
def likeMatch : List Char → List Char → Bool
  | [] => fun s => s.isEmpty
  | p :: ps =>
    if p == '%' then starMatch (likeMatch ps)
    else if p == '_' then fun s =>
      match s with
      | [] => false
      | _ :: s2 => likeMatch ps s2
    else fun s =>
      match s with
      | [] => false
      | c :: s2 => (asciiLower p == asciiLower c) && likeMatch ps s2

/-- `Index.search` (lines 70-77): `SELECT original FROM t WHERE original
LIKE ?`; the first matching row in rowid order, `None` when the table does
not exist or nothing matches. -/
def Index.search (idx : Index) (pattern : String) : Option String :=
  match idx.table with
  | none => none
  | some rows =>
    (rows.find? (fun r => likeMatch pattern.data r.1.data)).map Prod.fst

/-! ### Operation sequences over the store -/

/-- The store mutators available to callers. -/
inductive IndexOp where
  | ins (x : String)
  | upd (x s : String)
deriving DecidableEq, Repr

/-- Apply one mutator.  When `update` raises (no table yet), the store is
left unchanged (the transaction had written nothing). -/
def applyOp (idx : Index) : IndexOp → Index
  | .ins x => idx.insert x
  | .upd x s =>
    match idx.update x s with
    | some idx2 => idx2
    | none => idx

/-- Run a sequence of mutators. -/
def runOps (ops : List IndexOp) (idx : Index) : Index :=
  ops.foldl applyOp idx

/-- Does an operation touch original identifier `X`? -/
def touches (X : String) : IndexOp → Bool
  | .ins y => y == X
  | .upd y _ => y == X

/-- The store invariant of the claim: originals are globally unique. -/
def uniqOriginals (idx : Index) : Prop :=
  (idx.rows.map Prod.fst).Nodup

/-! ## Reconciliation: create_index (lines 258-284)

The index-build loop inserts every observed accession number; the links
loop below is the reconciliation step.  Logging is not modelled; a logged
row is simply skipped.
-/

/-- The links-file loop of `create_index` (lines 271-284).  `seen` is the
`invitation_num_set`; each row is `(invitation_num, serial_num)`. -/
def reconcile (idx : Index) (seen : List String) : List (String × String) → Index
  | [] => idx
  | (invitation_num, serial_num) :: rest =>
    if seen.contains invitation_num then
      reconcile idx seen rest                      -- duplicate: log and skip
    else
      match idx.search ("%" ++ invitation_num ++ "%") with
      | none => reconcile idx (invitation_num :: seen) rest   -- not found: log and skip
      | some accession_num =>
        match idx.update accession_num serial_num with
        | some idx2 => reconcile idx2 (invitation_num :: seen) rest
        | none => reconcile idx (invitation_num :: seen) rest
          -- unreachable: a successful search implies the table exists

/-- The rows actually acted on: later rows whose invitation number was
already seen are dropped (first occurrence wins). -/
def filterDup (seen : List String) : List (String × String) → List (String × String)
  | [] => []
  | (invitation_num, serial_num) :: rest =>
    if seen.contains invitation_num then filterDup seen rest
    else (invitation_num, serial_num) :: filterDup (invitation_num :: seen) rest

/-! ## pseudonymize and the run loop -/

/-- The exceptions `pseudonymize` can raise.  Only `valueError` is caught
by `run`; the other two propagate and kill the process. -/
inductive PseudonErr where
  | keyError                    -- `ds[ACCESSION_NUMBER]` with the attribute absent
  | interfaceError              -- sqlite rejects a MultiValue query parameter
  | valueError (msg : String)   -- line 235
deriving DecidableEq, Repr

/-- `DicomPseudon.pseudonymize` (lines 230-239).  On success: the dataset
after `ds.walk(partial(self.clean))` and the serial number.  On error: the
exception together with the dataset state at the moment it was raised —
every raise in this function happens before `ds.walk` runs, so the carried
dataset is always the unmodified input. -/
def pseudonymize (wl : WhiteList) (idx : Index) (ds : Record) :
    Except (PseudonErr × Record) (Record × String) :=
  match lookupTag ds ACCESSION_NUMBER with
  | none => .error (.keyError, ds)
  | some e =>
    match e.value with
    | .multi _ => .error (.interfaceError, ds)
    | .scalar none =>
      -- accession_num is None: `WHERE original = NULL` matches no row, so
      -- `self.index.get` returns None and line 235 raises with "%s" % None
      .error (.valueError "No serial number for accession number None", ds)
    | .scalar (some accession_num) =>
      match idx.get accession_num with
      | none =>
        .error (.valueError ("No serial number for accession number " ++ accession_num), ds)
      | some serial_num => .ok (dsWalkClean wl ds, serial_num)

/-- What reading one file from the identification directory produced. -/
inductive ReadResult where
  | ok (ds : Record)   -- pydicom.read_file succeeded
  | ioError            -- IOError at the filesystem level
  | invalid            -- InvalidDicomError (DICOM formatting error)
deriving DecidableEq, Repr

/-- One non-directory entry the walk visits, in walk order.  `writeFails`
says whether `ds.save_as` for this file would raise IOError. -/
structure FileEntry where
  name : String
  res : ReadResult
  writeFails : Bool
deriving DecidableEq, Repr

/-- `filename.startswith(".")`. -/
def hiddenName (s : String) : Bool :=
  match s.data with
  | [] => false
  | c :: _ => c == '.'

/-- Observable per-record outcomes of `run`. -/
inductive Event where
  | quarantined (file reason : String)   -- quarantine_file(source, ident_dir, reason)
  | written (file serial : String)       -- ds.save_as into clean_dir/serial
deriving DecidableEq, Repr

/-- `DicomPseudon.run` (lines 286-325) together with the `walk_dicoms`
generator it drains (lines 241-256, called with quarantine=True).  Result:
`some (events, flag)` where `flag` is the value `run` returns, or `none`
when an uncaught exception escapes.  Note the source's `return False`
inside the generator (line 252): a `return` in a Python generator only
stops the iteration — the value never reaches the `for` loop in `run`,
which simply falls through to `close_all()` and `return True`. -/
def runLoop (wl : WhiteList) (modalities : List String) (idx : Index) :
    List FileEntry → Option (List Event × Bool)
  | [] => some ([], true)
  | f :: rest =>
    if hiddenName f.name then runLoop wl modalities idx rest
    else
      match f.res with
      | .ioError => some ([], true)   -- generator stops; run returns True
      | .invalid =>
        (runLoop wl modalities idx rest).map
          (fun p => (Event.quarantined f.name "Could not read DICOM file." :: p.1, p.2))
      | .ok ds =>
        match checkQuarantine modalities ds with
        | none => none                -- check_quarantine raised
        | some (true, reason) =>
          (runLoop wl modalities idx rest).map
            (fun p => (Event.quarantined f.name reason :: p.1, p.2))
        | some (false, _) =>
          match pseudonymize wl idx ds with
          | .error (.valueError msg, _) =>
            (runLoop wl modalities idx rest).map
              (fun p =>
                (Event.quarantined f.name
                  ("Error running pseudonymize function. Error was: " ++ msg) :: p.1, p.2))
          | .error _ => none          -- KeyError / InterfaceError are not caught
          | .ok (_, serial_num) =>
            if f.writeFails then some ([], false)   -- save_as raised: close_all, return False
            else
              (runLoop wl modalities idx rest).map
                (fun p => (Event.written f.name serial_num :: p.1, p.2))

/-! ## Lemmas about the quarantine engine -/

theorem burntInCheck_fire {ds : Record} {v : Bool × String}
    (h : burntInCheck ds = some (some v)) : v = (true, "burnt-in data") := by
  unfold burntInCheck at h
  repeat' split at h
  all_goals simp_all

theorem imageTypeCheck_fire {ds : Record} {v : Bool × String}
    (h : imageTypeCheck ds = some (some v)) : v = (true, "Likely screen capture") := by
  unfold imageTypeCheck at h
  repeat' split at h
  all_goals simp_all

theorem manufacturerCheck_fire {ds : Record} {v : Bool × String}
    (h : manufacturerCheck ds = some (some v)) : v = (true, "Manufacturer is suspect") := by
  unfold manufacturerCheck at h
  repeat' split at h
  all_goals simp_all
  all_goals (split at h <;> simp_all)

theorem modelNameCheck_fire {ds : Record} {v : Bool × String}
    (h : modelNameCheck ds = some (some v)) : v = (true, "Manufacturer model name is suspect") := by
  unfold modelNameCheck at h
  repeat' split at h
  all_goals simp_all

/-- The blocks after the modality block never produce a modality reason. -/
theorem checkTail_not_modality {ds : Record} {v : Bool × String}
    (h : checkTail ds = some v) :
    v ≠ (true, "modality not allowed") ∧ v ≠ (true, "Modality missing") := by
  unfold checkTail at h
  rcases h1 : burntInCheck ds with _ | (_ | v1)
  · simp [h1] at h
  · simp only [h1] at h
    rcases h2 : imageTypeCheck ds with _ | (_ | v2)
    · simp [h2] at h
    · simp only [h2] at h
      rcases h3 : manufacturerCheck ds with _ | (_ | v3)
      · simp [h3] at h
      · simp only [h3] at h
        rcases h4 : modelNameCheck ds with _ | (_ | v4)
        · simp [h4] at h
        · simp only [h4, Option.some.injEq] at h
          subst h
          exact ⟨by decide, by decide⟩
        · have hv := modelNameCheck_fire h4
          subst hv
          simp only [h4, Option.some.injEq] at h
          subst h
          exact ⟨by decide, by decide⟩
      · have hv := manufacturerCheck_fire h3
        subst hv
        simp only [h3, Option.some.injEq] at h
        subst h
        exact ⟨by decide, by decide⟩
    · have hv := imageTypeCheck_fire h2
      subst hv
      simp only [h2, Option.some.injEq] at h
      subst h
      exact ⟨by decide, by decide⟩
  · have hv := burntInCheck_fire h1
    subst hv
    simp only [h1, Option.some.injEq] at h
    subst h
    exact ⟨by decide, by decide⟩

/-! ## Claim C2: the series-description "save" rule -/

/-- C2 counterexample.  The claim fails on the code in two ways, each shown
at a concrete record.  First, the reason string the code returns is
"Likely screen capture" (capital L), not "likely screen capture", already
at the claim's own instance (SeriesDescription "Save Screen", Modality
"CT").  Second, a record whose series description contains both "save" and
"patient protocol" is quarantined by the earlier rule with reason
"patient protocol", so containing "save" alone does not determine the
reason. -/
theorem series_save_counterexample :
    checkQuarantine ["mr", "ct"]
        [⟨SERIES_DESCR, DicomValue.scalar (some "Save Screen")⟩,
         ⟨MODALITY, DicomValue.scalar (some "CT")⟩]
      = some (true, "Likely screen capture")
    ∧ checkQuarantine ["mr", "ct"]
        [⟨SERIES_DESCR, DicomValue.scalar (some "Save Screen")⟩,
         ⟨MODALITY, DicomValue.scalar (some "CT")⟩]
      ≠ some (true, "likely screen capture")
    ∧ checkQuarantine ["mr", "ct"]
        [⟨SERIES_DESCR, DicomValue.scalar (some "patient protocol save")⟩]
      = some (true, "patient protocol") := by
  refine ⟨by decide, by decide, by decide⟩

/-- C2, amended: for every record whose series-description value is a
string that, trimmed and lower-cased, contains "save" but not
"patient protocol", check_quarantine quarantines with the code's exact
reason string "Likely screen capture", regardless of any later rule
(modalities and all later attributes are arbitrary). -/
theorem series_save_quarantined (modalities : List String) (ds : Record)
    (e : Elem) (s : String)
    (h1 : lookupTag ds SERIES_DESCR = some e)
    (h2 : e.value = DicomValue.scalar (some s))
    (h3 : pyIn "save" (pyLower (pyStrip s)) = true)
    (h4 : pyIn "patient protocol" (pyLower (pyStrip s)) = false) :
    checkQuarantine modalities ds = some (true, "Likely screen capture") := by
  unfold checkQuarantine seriesDescCheck
  simp [h1, h2, h3, h4]

/-- C2 witness: the amended rule at the claim's concrete instance. -/
theorem series_save_quarantined_witness :
    checkQuarantine ["mr", "ct"]
        [⟨SERIES_DESCR, DicomValue.scalar (some "Save Screen")⟩,
         ⟨MODALITY, DicomValue.scalar (some "CT")⟩]
      = some (true, "Likely screen capture") :=
  series_save_quarantined ["mr", "ct"] _ ⟨SERIES_DESCR, DicomValue.scalar (some "Save Screen")⟩
    "Save Screen" (by decide) (by decide) (by decide) (by decide)

/-! ## Claim C3: the modality rules -/

/-- C3 counterexample: the code's reason for a record with no Modality
attribute is "Modality missing" (capital M), not "modality missing" as the
claim states, already on the empty record. -/
theorem modality_missing_counterexample :
    checkQuarantine ["mr", "ct"] ([] : Record) = some (true, "Modality missing")
    ∧ checkQuarantine ["mr", "ct"] ([] : Record) ≠ some (true, "modality missing") := by
  refine ⟨by decide, by decide⟩

/-- C3, amended: on a record where the series-description block neither
fired nor raised, check_quarantine returns (True, "modality not allowed")
exactly when the modality attribute is present and the value list obtained
by the code's VM idiom has a member that is None or, lower-cased, not in
the configured allowed-modality list; and it returns
(True, "Modality missing") — capital M — exactly when the modality
attribute is absent.  The two characterizations are mutually exclusive
(present vs. absent). -/
theorem modality_rules (modalities : List String) (ds : Record)
    (h0 : seriesDescCheck ds = some none) :
    (checkQuarantine modalities ds = some (true, "modality not allowed") ↔
      ∃ e vs, lookupTag ds MODALITY = some e ∧ elemValues e.value = some vs ∧
        vs.any (modalityBad modalities) = true)
    ∧ (checkQuarantine modalities ds = some (true, "Modality missing") ↔
        lookupTag ds MODALITY = none) := by
  unfold checkQuarantine modalityCheck
  simp only [h0]
  rcases hm : lookupTag ds MODALITY with _ | e
  · simp [hm]
  · rcases hv : elemValues e.value with _ | vs
    · simp [hm, hv]
    · by_cases hb : vs.any (modalityBad modalities) = true
      · simp [hm, hv, hb]
        exact List.any_eq_true.mp hb
      · simp [hm, hv, hb]
        constructor
        · constructor
          · intro h
            exact absurd rfl (checkTail_not_modality h).1
          · rintro ⟨x, hx, hbx⟩
            exact absurd (List.any_eq_true.mpr ⟨x, hx, hbx⟩) hb
        · intro h
          exact absurd rfl (checkTail_not_modality h).2

/-- C3 witness: the amended characterization at a record whose modality
"US" is outside the default allowed list. -/
theorem modality_rules_witness :
    (checkQuarantine ["mr", "ct"] [⟨MODALITY, DicomValue.scalar (some "US")⟩]
        = some (true, "modality not allowed") ↔
      ∃ e vs, lookupTag [⟨MODALITY, DicomValue.scalar (some "US")⟩] MODALITY = some e ∧
        elemValues e.value = some vs ∧ vs.any (modalityBad ["mr", "ct"]) = true)
    ∧ (checkQuarantine ["mr", "ct"] [⟨MODALITY, DicomValue.scalar (some "US")⟩]
        = some (true, "Modality missing") ↔
        lookupTag [⟨MODALITY, DicomValue.scalar (some "US")⟩] MODALITY = none) :=
  modality_rules ["mr", "ct"] _ (by decide)

/-! ## Lemmas about the Index -/

theorem map_fst_update (rows : List (String × Option String)) (X S : String) :
    (rows.map (fun r => if r.1 == X then (r.1, some S) else r)).map Prod.fst
      = rows.map Prod.fst := by
  induction rows with
  | nil => rfl
  | cons r rest ih =>
    simp only [List.map_cons, ih]
    by_cases h : r.1 == X <;> simp [h]

theorem not_mem_of_not_any {rows : List (String × Option String)} {X : String}
    (h : ¬rows.any (fun r => r.1 == X) = true) : X ∉ rows.map Prod.fst := by
  intro hmem
  rcases List.mem_map.mp hmem with ⟨r, hr, hfst⟩
  exact h (List.any_eq_true.mpr ⟨r, hr, by simp [hfst]⟩)

theorem insert_rows_of_mem {idx : Index} {X : String}
    (hin : (idx.rows).any (fun r => r.1 == X) = true) :
    (idx.insert X).rows = idx.rows := by
  unfold Index.insert Index.rows at *
  simp [hin]

theorem insert_rows_of_not_mem {idx : Index} {X : String}
    (hin : ¬(idx.rows).any (fun r => r.1 == X) = true) :
    (idx.insert X).rows = idx.rows ++ [(X, none)] := by
  unfold Index.insert Index.rows at *
  simp [hin]

theorem uniq_insert {idx : Index} {X : String} (h : uniqOriginals idx) :
    uniqOriginals (idx.insert X) := by
  unfold uniqOriginals at *
  by_cases hin : (idx.rows).any (fun r => r.1 == X)
  · rw [insert_rows_of_mem hin]
    exact h
  · rw [insert_rows_of_not_mem hin]
    have hnot := not_mem_of_not_any hin
    simp [List.nodup_append, h, hnot]

theorem uniq_applyOp {idx : Index} {op : IndexOp} (h : uniqOriginals idx) :
    uniqOriginals (applyOp idx op) := by
  cases op with
  | ins x => exact uniq_insert h
  | upd x s =>
    unfold applyOp Index.update
    cases htab : idx.table with
    | none => simpa [htab] using h
    | some rows =>
      simp only [htab]
      unfold uniqOriginals Index.rows at h ⊢
      rw [htab] at h
      simp only [Option.getD_some] at h ⊢
      rw [map_fst_update]
      exact h

theorem uniq_empty : uniqOriginals Index.empty := by
  simp [uniqOriginals, Index.empty, Index.rows]

theorem uniq_runOps (ops : List IndexOp) : uniqOriginals (runOps ops Index.empty) := by
  suffices h : ∀ idx, uniqOriginals idx → uniqOriginals (runOps ops idx) from
    h _ uniq_empty
  unfold runOps
  induction ops with
  | nil => intro idx h; exact h
  | cons op rest ih =>
    intro idx h
    exact ih _ (uniq_applyOp h)

theorem mem_insert_self (idx : Index) (X : String) :
    X ∈ (idx.insert X).rows.map Prod.fst := by
  by_cases hin : (idx.rows).any (fun r => r.1 == X)
  · rcases List.any_eq_true.mp hin with ⟨r, hr, hbeq⟩
    have hfst : r.1 = X := by simpa using hbeq
    rw [insert_rows_of_mem hin]
    exact hfst ▸ List.mem_map_of_mem Prod.fst hr
  · rw [insert_rows_of_not_mem hin]
    simp

theorem insert_noop {idx : Index} {X : String}
    (h : X ∈ idx.rows.map Prod.fst) : idx.insert X = idx := by
  rcases List.mem_map.mp h with ⟨r, hr, hfst⟩
  have hany : (idx.rows).any (fun r => r.1 == X) = true :=
    List.any_eq_true.mpr ⟨r, hr, by simp [hfst]⟩
  have htab : idx.table = some idx.rows := by
    cases htab2 : idx.table with
    | none => simp [Index.rows, htab2] at hr
    | some rows => simp [Index.rows, htab2]
  unfold Index.insert
  simp only [hany, if_true]
  rw [← htab]

/-! ## Claim C4: uniqueness of originals, idempotent insert -/

/-- C4: starting from a fresh store, after any sequence of mutators no
original identifier ever occupies two rows; `insert X` twice leaves
exactly one row for `X`; and the second `insert` is a no-op (the store is
unchanged), not an error. -/
theorem index_insert_idempotent_unique (ops : List IndexOp) (X : String) :
    (∀ Y, ((runOps ops Index.empty).rows.map Prod.fst).count Y ≤ 1)
    ∧ ((runOps ops Index.empty).insert X).insert X = (runOps ops Index.empty).insert X
    ∧ (((runOps ops Index.empty).insert X).rows.map Prod.fst).count X = 1 := by
  have hu := uniq_runOps ops
  refine ⟨fun Y => List.nodup_iff_count_le_one.mp hu Y, ?_, ?_⟩
  · exact insert_noop (mem_insert_self _ X)
  · exact List.count_eq_one_of_mem (uniq_insert hu) (mem_insert_self _ X)

/-! ## Claim C5: get before and after update -/

theorem get_none_of_not_mem {idx : Index} {X : String}
    (h : X ∉ idx.rows.map Prod.fst) : idx.get X = none := by
  unfold Index.get
  cases htab : idx.table with
  | none => rfl
  | some rows =>
    have hfind : rows.find? (fun r => r.1 == X) = none := by
      apply List.find?_eq_none.mpr
      intro r hr hbeq
      apply h
      have hfst : r.1 = X := by simpa using hbeq
      have : r ∈ idx.rows := by rw [Index.rows, htab]; exact hr
      exact hfst ▸ List.mem_map_of_mem Prod.fst this
    simp [hfind]

theorem not_mem_applyOp {idx : Index} {op : IndexOp} {X : String}
    (hnt : ¬touches X op = true) (h : X ∉ idx.rows.map Prod.fst) :
    X ∉ (applyOp idx op).rows.map Prod.fst := by
  cases op with
  | ins y =>
    have hxy : ¬(y == X) = true := by simpa [touches] using hnt
    show X ∉ (idx.insert y).rows.map Prod.fst
    by_cases hin : (idx.rows).any (fun r => r.1 == y)
    · rw [insert_rows_of_mem hin]
      exact h
    · rw [insert_rows_of_not_mem hin]
      simp only [List.map_append, List.mem_append]
      rintro (hmem | hmem)
      · exact h hmem
      · simp only [List.map_cons, List.map_nil, List.mem_singleton] at hmem
        exact hxy (by simp [hmem])
  | upd y s =>
    unfold applyOp Index.update
    cases htab : idx.table with
    | none => simpa [htab] using h
    | some rows =>
      simp only [htab]
      unfold Index.rows at h ⊢
      rw [htab] at h
      simp only [Option.getD_some] at h ⊢
      rw [map_fst_update]
      exact h

theorem not_mem_runOps {ops : List IndexOp} {X : String}
    (hops : ops.all (fun op => !(touches X op)) = true) :
    X ∉ (runOps ops Index.empty).rows.map Prod.fst := by
  suffices hgen : ∀ idx, X ∉ idx.rows.map Prod.fst →
      X ∉ (runOps ops idx).rows.map Prod.fst by
    apply hgen
    simp [Index.empty, Index.rows]
  unfold runOps
  induction ops with
  | nil => intro idx h; exact h
  | cons op rest ih =>
    intro idx h
    rw [List.all_cons, Bool.and_eq_true] at hops
    have hnt : ¬touches X op = true := by
      simpa using hops.1
    exact ih hops.2 _ (not_mem_applyOp hnt h)

theorem find?_update {rows : List (String × Option String)} {X : String} (S : String)
    (h : X ∈ rows.map Prod.fst) :
    (rows.map (fun r => if r.1 == X then (r.1, some S) else r)).find?
        (fun r => r.1 == X) = some (X, some S) := by
  induction rows with
  | nil => simp at h
  | cons r rest ih =>
    by_cases hr : r.1 == X
    · have hfst : r.1 = X := by simpa using hr
      simp only [List.map_cons, hr, if_true]
      rw [List.find?_cons_of_pos _ (by simpa using hr)]
      rw [hfst]
    · simp only [List.map_cons, hr, Bool.false_eq_true, if_false, ite_false]
      rw [List.find?_cons_of_neg _ (by simpa using hr)]
      apply ih
      simp only [List.map_cons, List.mem_cons] at h
      rcases h with h | h
      · exact absurd (by simp [h]) hr
      · exact h

theorem update_then_get {idx : Index} {X : String} (S : String)
    (hX : X ∈ idx.rows.map Prod.fst) :
    ∃ idx2, idx.update X S = some idx2 ∧ idx2.get X = some S := by
  cases htab : idx.table with
  | none => simp [Index.rows, htab] at hX
  | some rows =>
    have hXr : X ∈ rows.map Prod.fst := by
      rw [Index.rows, htab] at hX
      simpa using hX
    refine ⟨⟨some (rows.map (fun r => if r.1 == X then (r.1, some S) else r))⟩,
      by simp [Index.update, htab], ?_⟩
    unfold Index.get
    simp only [find?_update S hXr]

/-- C5 counterexample: in a store that holds only the row for "y",
`update("x", "s")` succeeds (as a no-op, since no row matches), yet
`get("x")` afterwards returns absent, not "s" — refuting the claim that
after `update(X, S)`, `get(X)` returns `S`. -/
theorem get_after_update_counterexample :
    ((Index.empty.insert "y").update "x" "s").isSome = true
    ∧ (((Index.empty.insert "y").update "x" "s").map (fun i => i.get "x"))
        ≠ some (some "s") := by
  refine ⟨by decide, by decide⟩

/-- C5, amended: `get(X)` after any sequence of mutators not touching `X`
(and in particular on a store whose backing table was never created)
returns absent; and provided a row for `X` exists — as after `insert(X)` —
`update(X, S)` succeeds and `get(X)` afterwards returns `S`. -/
theorem get_absent_then_update_get (ops : List IndexOp) (X S : String) (idx : Index)
    (hops : ops.all (fun op => !(touches X op)) = true)
    (hX : X ∈ idx.rows.map Prod.fst) :
    (runOps ops Index.empty).get X = none
    ∧ ∃ idx2, idx.update X S = some idx2 ∧ idx2.get X = some S :=
  ⟨get_none_of_not_mem (not_mem_runOps hops), update_then_get S hX⟩

/-- C5 witness: inserting only "y" leaves `get "x"` absent; after
`insert "x"` the update to "s" is visible. -/
theorem get_absent_then_update_get_witness :
    (runOps [IndexOp.ins "y"] Index.empty).get "x" = none
    ∧ ∃ idx2, (Index.empty.insert "x").update "x" "s" = some idx2
        ∧ idx2.get "x" = some "s" :=
  get_absent_then_update_get [IndexOp.ins "y"] "x" "s" (Index.empty.insert "x")
    (by decide) (by decide)

/-! ## Claim C7: reconciliation skips duplicate invitation numbers -/

theorem reconcile_filterDup :
    ∀ (rows : List (String × String)) (idx : Index) (seen : List String),
      reconcile idx seen rows = reconcile idx seen (filterDup seen rows) := by
  intro rows
  induction rows with
  | nil => intro idx seen; rfl
  | cons row rest ih =>
    intro idx seen
    rcases row with ⟨inv, ser⟩
    by_cases hs : seen.contains inv
    · simp only [reconcile, filterDup, hs, if_true]
      exact ih idx seen
    · simp only [reconcile, filterDup, hs, Bool.false_eq_true, if_false, ite_false]
      cases hsr : idx.search ("%" ++ inv ++ "%") with
      | none =>
        simp only [hsr]
        exact ih idx (inv :: seen)
      | some acc =>
        cases hup : idx.update acc ser with
        | none =>
          simp only [hsr, hup]
          exact ih idx (inv :: seen)
        | some idx2 =>
          simp only [hsr, hup]
          exact ih idx2 (inv :: seen)

/-- C7: running reconciliation over a links list is the same as running it
over the list with every later duplicate invitation number dropped — only
the first occurrence of a fragment is acted on (its search and update
performed), later rows with the same fragment are skipped.  In particular,
for rows [("123", "S1"), ("123", "S2")] against a store holding "X123Y",
only the update to "S1" is applied. -/
theorem reconcile_first_occurrence_wins (idx : Index) (rows : List (String × String)) :
    reconcile idx [] rows = reconcile idx [] (filterDup [] rows)
    ∧ (reconcile (Index.empty.insert "X123Y") []
        [("123", "S1"), ("123", "S2")]).get "X123Y" = some "S1" :=
  ⟨reconcile_filterDup rows idx [], by decide⟩

/-! ## Claim C10: the serial lookup precedes the attribute filter -/

/-- C10: in `pseudonymize`, the identifier lookup happens before
`ds.walk(partial(self.clean))`; when the accession number has no serial,
the ValueError is raised with the dataset still in its original state —
the error carries `ds` itself, unfiltered. -/
theorem lookup_precedes_filter (wl : WhiteList) (idx : Index) (ds : Record)
    (e : Elem) (a : String)
    (hacc : lookupTag ds ACCESSION_NUMBER = some e)
    (hval : e.value = DicomValue.scalar (some a))
    (hget : idx.get a = none) :
    pseudonymize wl idx ds =
      Except.error (PseudonErr.valueError
        ("No serial number for accession number " ++ a), ds) := by
  unfold pseudonymize
  simp [hacc, hval, hget]

/-- C10 witness: a concrete record whose accession number "A1" is not in
the store; the raised error carries the record unchanged. -/
theorem lookup_precedes_filter_witness :
    pseudonymize [] Index.empty
        [⟨ACCESSION_NUMBER, DicomValue.scalar (some "A1")⟩,
         ⟨SERIES_DESCR, DicomValue.scalar (some "X")⟩] =
      Except.error (PseudonErr.valueError
        ("No serial number for accession number " ++ "A1"),
        [⟨ACCESSION_NUMBER, DicomValue.scalar (some "A1")⟩,
         ⟨SERIES_DESCR, DicomValue.scalar (some "X")⟩]) :=
  lookup_precedes_filter [] Index.empty _
    ⟨ACCESSION_NUMBER, DicomValue.scalar (some "A1")⟩ "A1"
    (by decide) (by decide) (by decide)

/-! ## Claim C8: a resolution failure quarantines the record and the run
continues -/

/-- C8: when a record passes the quarantine check but its accession number
resolves to no serial number, the run quarantines that record with the
resolution-error reason, does not write it, and continues with the
remaining files exactly as if it had started there. -/
theorem resolution_error_quarantines (wl : WhiteList) (modalities : List String)
    (idx : Index) (f : FileEntry) (rest : List FileEntry) (ds : Record) (e : Elem)
    (a rsn : String)
    (hname : hiddenName f.name = false)
    (hres : f.res = ReadResult.ok ds)
    (hcheck : checkQuarantine modalities ds = some (false, rsn))
    (hacc : lookupTag ds ACCESSION_NUMBER = some e)
    (hval : e.value = DicomValue.scalar (some a))
    (hget : idx.get a = none) :
    runLoop wl modalities idx (f :: rest) =
      (runLoop wl modalities idx rest).map
        (fun p => (Event.quarantined f.name
          ("Error running pseudonymize function. Error was: " ++
            ("No serial number for accession number " ++ a)) :: p.1, p.2)) := by
  have hps : pseudonymize wl idx ds =
      Except.error (PseudonErr.valueError
        ("No serial number for accession number " ++ a), ds) := by
    unfold pseudonymize
    simp [hacc, hval, hget]
  simp only [runLoop]
  simp [hname, hres, hcheck, hps]

/-- C8 witness: a single-file run whose record resolves to no serial;
the file is quarantined with the resolution reason and the run goes on. -/
theorem resolution_error_quarantines_witness :
    runLoop [] ["mr", "ct"] Index.empty
        [⟨"a.dcm", ReadResult.ok
            [⟨ACCESSION_NUMBER, DicomValue.scalar (some "A1")⟩,
             ⟨MODALITY, DicomValue.scalar (some "MR")⟩], false⟩] =
      (runLoop [] ["mr", "ct"] Index.empty []).map
        (fun p => (Event.quarantined "a.dcm"
          ("Error running pseudonymize function. Error was: " ++
            ("No serial number for accession number " ++ "A1")) :: p.1, p.2)) :=
  resolution_error_quarantines [] ["mr", "ct"] Index.empty _ []
    [⟨ACCESSION_NUMBER, DicomValue.scalar (some "A1")⟩,
     ⟨MODALITY, DicomValue.scalar (some "MR")⟩]
    ⟨ACCESSION_NUMBER, DicomValue.scalar (some "A1")⟩ "A1" ""
    (by decide) (by decide) (by decide) (by decide) (by decide) (by decide)

/-! ## Claim C9: fatal read and write errors -/

/-- C9: evaluating `run` at the two fatal-I/O situations.  A write
IOError aborts the run with result False and no later file is processed
(second conjunct).  But a read IOError only stops the walk generator: its
`return False` is discarded by the for loop, `run` falls through and
returns True — the abort happens, yet no failure signal reaches the
caller (first conjunct), contradicting the claim for the read-error
case. -/
theorem fatal_io_run_results :
    runLoop [] ["mr", "ct"] (⟨some [("A1", some "S1")]⟩ : Index)
        [⟨"a.dcm", ReadResult.ioError, false⟩,
         ⟨"b.dcm", ReadResult.ok
            [⟨ACCESSION_NUMBER, DicomValue.scalar (some "A1")⟩,
             ⟨MODALITY, DicomValue.scalar (some "MR")⟩], false⟩]
      = some ([], true)
    ∧ runLoop [] ["mr", "ct"] (⟨some [("A1", some "S1")]⟩ : Index)
        [⟨"a.dcm", ReadResult.ok
            [⟨ACCESSION_NUMBER, DicomValue.scalar (some "A1")⟩,
             ⟨MODALITY, DicomValue.scalar (some "MR")⟩], true⟩,
         ⟨"b.dcm", ReadResult.ok
            [⟨ACCESSION_NUMBER, DicomValue.scalar (some "A1")⟩,
             ⟨MODALITY, DicomValue.scalar (some "MR")⟩], false⟩]
      = some ([], false) := by
  refine ⟨by decide, by decide⟩

/-! ## Claim C1: the attribute filter keeps exactly the allowed elements -/

theorem whiteListHandler_iff (wl : WhiteList) (e : Elem) :
    whiteListHandler wl e = true ↔ spec_allows wl e := by
  unfold whiteListHandler spec_allows
  cases hl : List.lookup e.tag wl with
  | none => simp
  | some vals =>
    simp only [Option.some.injEq]
    by_cases hemp : vals.isEmpty
    · have : vals = [] := by simpa [List.isEmpty_iff] using hemp
      subst this
      simp
    · simp only [hemp, Bool.false_eq_true, if_false, ite_false]
      constructor
      · intro h
        by_cases hstar : vals.contains "*"
        · exact ⟨vals, rfl, Or.inl (by simpa using hstar)⟩
        · by_cases hnorm : vals.contains (normalizeValue (pyStr e.value))
          · exact ⟨vals, rfl, Or.inr (by simpa using hnorm)⟩
          · rw [if_pos] at h
            · cases h
            · simp only [Bool.and_eq_true, Bool.not_eq_true']
              exact ⟨by simpa using hstar, by simpa using hnorm⟩
      · rintro ⟨vals2, hv2, hmem⟩
        cases hv2
        rw [if_neg]
        rcases hmem with hm | hm <;> simp [hm]

theorem cleanKeep_iff (wl : WhiteList) (e : Elem) :
    cleanKeep wl e = true ↔
      (e.tag = ACCESSION_NUMBER ∨ allowedFileMeta e.tag = true ∨ spec_allows wl e) := by
  unfold cleanKeep
  simp only [Bool.or_eq_true, beq_iff_eq, whiteListHandler_iff]
  rw [or_assoc]

theorem clean_fst (wl : WhiteList) (ds : Record) (e : Elem) :
    (clean wl ds e).1 = if cleanKeep wl e then ds else delTag ds e.tag := by
  unfold clean cleanKeep
  by_cases h1 : e.tag == ACCESSION_NUMBER
  · simp [h1]
  · by_cases h2 : allowedFileMeta e.tag
    · simp [h1, h2]
    · by_cases h3 : whiteListHandler wl e <;> simp [h1, h2, h3]

theorem walkAux_eq_filter (wl : WhiteList) :
    ∀ (es : List Elem) (ds : Record),
      walkAux wl es ds =
        ds.filter (fun a => es.all (fun e => cleanKeep wl e || !(a.tag == e.tag))) := by
  intro es
  induction es with
  | nil =>
    intro ds
    simp [walkAux]
  | cons e es ih =>
    intro ds
    simp only [walkAux]
    rw [clean_fst]
    by_cases hk : cleanKeep wl e
    · rw [if_pos hk, ih]
      apply List.filter_congr
      intro a ha
      simp [hk]
    · rw [if_neg hk, ih]
      unfold delTag
      rw [List.filter_filter]
      apply List.filter_congr
      intro a ha
      have hk2 : cleanKeep wl e = false := by simpa using hk
      cases hae : a.tag == e.tag <;> simp [hk2, hae]

/-- C1: on a dataset with unique tags, an element survives the clean walk
exactly when it is the accession number, a format-critical file meta
attribute, or allowed by the whitelist (wildcard, or normalized value in
the allowed set for its tag); equivalently, every removed element was
allowed by none of the three rules. -/
theorem clean_keeps_exactly_allowed (wl : WhiteList) (ds : Record) (e : Elem)
    (hnd : (ds.map Elem.tag).Nodup) (he : e ∈ ds) :
    e ∈ dsWalkClean wl ds ↔
      (e.tag = ACCESSION_NUMBER ∨ allowedFileMeta e.tag = true ∨ spec_allows wl e) := by
  unfold dsWalkClean
  rw [walkAux_eq_filter, List.mem_filter]
  rw [← cleanKeep_iff]
  constructor
  · rintro ⟨-, hall⟩
    have h := (List.all_eq_true.mp hall) e he
    simpa using h
  · intro hk
    refine ⟨he, List.all_eq_true.mpr ?_⟩
    intro x hx
    by_cases hax : e.tag == x.tag
    · have hex : e = x :=
        List.inj_on_of_nodup_map hnd he hx (by simpa using hax)
      subst hex
      simp [hk]
    · have : (e.tag == x.tag) = false := by simpa using hax
      simp [this]

/-- C1 witness: with a whitelist allowing any series description, the
characterization at the modality element of a three-element record. -/
theorem clean_keeps_exactly_allowed_witness :
    ⟨MODALITY, DicomValue.scalar (some "MR")⟩ ∈
        dsWalkClean [(SERIES_DESCR, ["*"])]
          [⟨ACCESSION_NUMBER, DicomValue.scalar (some "A1")⟩,
           ⟨SERIES_DESCR, DicomValue.scalar (some "X")⟩,
           ⟨MODALITY, DicomValue.scalar (some "MR")⟩] ↔
      ((⟨MODALITY, DicomValue.scalar (some "MR")⟩ : Elem).tag = ACCESSION_NUMBER
        ∨ allowedFileMeta (⟨MODALITY, DicomValue.scalar (some "MR")⟩ : Elem).tag = true
        ∨ spec_allows [(SERIES_DESCR, ["*"])] ⟨MODALITY, DicomValue.scalar (some "MR")⟩) :=
  clean_keeps_exactly_allowed [(SERIES_DESCR, ["*"])] _ _ (by decide) (by decide)

/-! ## Claim C6: Index.search and substring semantics -/

theorem likeMatch_percent (ps : List Char) :
    likeMatch ('%' :: ps) = starMatch (likeMatch ps) := by
  simp [likeMatch]

theorem likeMatch_char {p : Char} (ps : List Char)
    (h1 : (p == '%') = false) (h2 : (p == '_') = false) :
    likeMatch (p :: ps) = fun s =>
      match s with
      | [] => false
      | c :: s2 => (asciiLower p == asciiLower c) && likeMatch ps s2 := by
  simp [likeMatch, h1, h2]

theorem starMatch_isEmpty : ∀ s, starMatch (fun t : List Char => t.isEmpty) s = true
  | [] => rfl
  | c :: s => by simp [starMatch, starMatch_isEmpty s]

theorem starMatch_congr {f g : List Char → Bool} (h : ∀ t, f t = g t) :
    ∀ s, starMatch f s = starMatch g s
  | [] => by simp [starMatch, h]
  | c :: s => by simp [starMatch, h, starMatch_congr h s]

theorem containsByF_eq_star (f : Char → Char) (pat : List Char) :
    ∀ s, containsByF f pat s = starMatch (isPrefixBy f pat) s
  | [] => rfl
  | c :: s => by simp [containsByF, starMatch, containsByF_eq_star f pat s]

theorem likeMatch_plain :
    ∀ P : List Char, (∀ c ∈ P, (c == '%') = false ∧ (c == '_') = false) →
      ∀ s, likeMatch (P ++ ['%']) s = isPrefixBy asciiLower P s := by
  intro P
  induction P with
  | nil =>
    intro _ s
    simp only [List.nil_append, likeMatch_percent]
    rw [show likeMatch ([] : List Char) = fun s => s.isEmpty from rfl]
    rw [starMatch_isEmpty]
    rfl
  | cons p P ih =>
    intro hP s
    have hp := hP p (by simp)
    have hPrest : ∀ c ∈ P, (c == '%') = false ∧ (c == '_') = false :=
      fun c hc => hP c (List.mem_cons_of_mem p hc)
    rw [List.cons_append, likeMatch_char _ hp.1 hp.2]
    cases s with
    | nil => rfl
    | cons c s2 =>
      simp only [isPrefixBy]
      rw [ih hPrest s2]

/-- sqlite LIKE with the pattern `%P%` (no wildcards inside `P`) matches a
string exactly when `P` occurs in it as a substring under ASCII
case-insensitive comparison. -/
theorem likeMatch_contains (P : List Char)
    (hP : ∀ c ∈ P, (c == '%') = false ∧ (c == '_') = false) (s : List Char) :
    likeMatch ('%' :: (P ++ ['%'])) s = containsByF asciiLower P s := by
  rw [likeMatch_percent, containsByF_eq_star]
  exact starMatch_congr (fun t => likeMatch_plain P hP t) s

/-- C6 counterexample: the store holds only "ABC"; no stored original
contains "abc" as a case-sensitive substring, yet `search("%abc%")`
returns "ABC" — sqlite LIKE is ASCII case-insensitive, refuting the
claimed case-sensitive matching. -/
theorem search_case_counterexample :
    (Index.empty.insert "ABC").search "%abc%" = some "ABC"
    ∧ ((Index.empty.insert "ABC").rows.all
        (fun r => !(containsByF id "abc".data r.1.data))) = true := by
  refine ⟨by decide, by decide⟩

/-- C6, amended: for a fragment `P` containing no LIKE wildcard
characters, `search("%P%")` returns the first stored original that
contains `P` as a substring under ASCII case-insensitive comparison,
and absent when no stored original does (also when the backing table was
never created, since then there are no rows). -/
theorem search_substring_ci (idx : Index) (P : String)
    (hP : P.data.all (fun c => !(c == '%') && !(c == '_')) = true) :
    idx.search ("%" ++ P ++ "%") =
      (idx.rows.find? (fun r => containsByF asciiLower P.data r.1.data)).map Prod.fst := by
  have hplain : ∀ c ∈ P.data, (c == '%') = false ∧ (c == '_') = false := by
    intro c hc
    have h := (List.all_eq_true.mp hP) c hc
    simp only [Bool.and_eq_true, Bool.not_eq_true'] at h
    exact h
  have hdata : ("%" ++ P ++ "%").data = '%' :: (P.data ++ ['%']) := by
    simp [String.data_append]
  unfold Index.search
  cases htab : idx.table with
  | none => simp [Index.rows, htab]
  | some rows =>
    simp only [Index.rows, htab, Option.getD_some]
    have hfun : (fun r : String × Option String => likeMatch ("%" ++ P ++ "%").data r.1.data)
        = (fun r => containsByF asciiLower P.data r.1.data) := by
      funext r
      rw [hdata, likeMatch_contains P.data hplain]
    rw [hfun]

/-- C6 witness: searching the fragment "123" in a store holding "X123Y". -/
theorem search_substring_ci_witness :
    (Index.empty.insert "X123Y").search ("%" ++ "123" ++ "%") =
      ((Index.empty.insert "X123Y").rows.find?
        (fun r => containsByF asciiLower "123".data r.1.data)).map Prod.fst :=
  search_substring_ci (Index.empty.insert "X123Y") "123" (by decide)
